import Mathlib

/-!
Verification of the quiche gcongestion packet pacer
(src/quiche/src/recovery/gcongestion/pacer.rs), shallowly embedded in Lean.

The pacer's collaborators (Bandwidth, ReleaseTime, ReleaseDecision, RttStats
and the wrapped Congestion controller) are declared outside the repository
fragment: only their call sites appear in pacer.rs.  Following the repository
specification, those are modelled from the spec (sections 4.1-4.3 and 6):
instants and durations are natural numbers of microseconds, bandwidths are
natural numbers of bits per second, and the congestion controller is an
arbitrary snapshot of the query answers it gives during one pacer call
(the controller itself is declared out of scope by the spec).
-/

namespace PacerModel

/-- Congestion window fraction allowed in bursts during pacing
(LUMPY_PACING_CWND_FRACTION = 0.25 in pacer.rs; the code floors
cwnd_in_packets * 0.25, which is the natural-number division by 4). -/
def LUMPY_PACING_CWND_DIV : Nat := 4

/-- Number of packets allowed in bursts during pacing (pacer.rs). -/
def LUMPY_PACING_SIZE : Nat := 2

/-- Configured maximum size of the burst coming out of quiescence (pacer.rs). -/
def INITIAL_UNPACED_BURST : Nat := 10

/-- Modelled from the spec: the Bandwidth scalar rate type is missing from
src/; per spec section 4.1 it is a non-negative rate, represented here as
bits per second. -/
abbrev Bandwidth := Nat

/-- Modelled from the spec: construct a Bandwidth from kilobits per second. -/
def Bandwidth.from_kbits_per_second (k : Nat) : Bandwidth := k * 1000

/-- Minimum estimated bandwidth below which the pacer does not allow bursts
(LUMPY_PACING_MIN_BANDWIDTH_KBPS = 1200 kbps in pacer.rs). -/
def LUMPY_PACING_MIN_BANDWIDTH_KBPS : Bandwidth :=
  Bandwidth.from_kbits_per_second 1200

/-- Modelled from the spec: transfer_time(bytes) is the duration (microseconds)
needed to push the given bytes at this rate; per spec section 4.4 a zero rate
yields a zero delay. -/
def Bandwidth.transfer_time (r : Bandwidth) (bytes : Nat) : Nat :=
  if r = 0 then 0 else bytes * 8 * 1000000 / r

/-- Modelled from the spec: to_bytes_per_period(duration) is the byte budget
over the given duration (microseconds) at this rate. -/
def Bandwidth.to_bytes_per_period (r : Bandwidth) (period : Nat) : Nat :=
  r * period / 8 / 1000000

/-- Modelled from the spec: multiplication of a rate by the factor 1.25,
which the spec notes is exact in floating point; on bits per second this is
multiplication by 5/4, floored. -/
def Bandwidth.mul125 (r : Bandwidth) : Bandwidth := r * 5 / 4

/-- Modelled from the spec: the read-only RTT snapshot; only smoothed_rtt
(microseconds) is consumed by the pacer. -/
structure RttStats where
  smoothed_rtt : Nat
deriving Repr, DecidableEq

/-- Modelled from the spec: ReleaseTime is the tagged variant
of spec section 4.2, Immediate or At(instant). -/
inductive ReleaseTime where
  | Immediate : ReleaseTime
  | At : Nat → ReleaseTime
deriving Repr, DecidableEq

/-- Modelled from the spec: set_max clamps the clock upward to the given
instant; on Immediate it becomes At of that instant. -/
def ReleaseTime.set_max : ReleaseTime → Nat → ReleaseTime
  | .Immediate, t => .At t
  | .At c, t => .At (max c t)

/-- Modelled from the spec: inc advances a stored instant by a duration.
Spec section 9 leaves inc on Immediate open because the pacer only ever
calls inc right after set_max; we resolve it as the identity, which the
pacer never observes. -/
def ReleaseTime.inc : ReleaseTime → Nat → ReleaseTime
  | .Immediate, _ => .Immediate
  | .At c, d => .At (c + d)

/-- Order on release times: Immediate is earliest, At comparisons follow the
instants.  Used to state clock monotonicity. -/
def ReleaseTime.le : ReleaseTime → ReleaseTime → Bool
  | .Immediate, _ => true
  | .At _, .Immediate => false
  | .At a, .At b => a ≤ b

/-- Modelled from the spec: ReleaseDecision is the record of an earliest
release time and a burst-allowance flag (spec section 4.3). -/
structure ReleaseDecision where
  time : ReleaseTime
  allow_burst : Bool
deriving Repr, DecidableEq

/-- Modelled from the spec: the congestion controller is an external
collaborator (spec sections 1 and 6).  A Sender is the snapshot of the
answers the wrapped controller gives to the pacer's queries during one call,
taken after the unconditional delegation that the pacer performs first. -/
structure Sender where
  is_in_recovery : Bool
  get_congestion_window_in_packets : Nat
  get_congestion_window : Nat
  bandwidth_estimate : RttStats → Bandwidth
  pacing_rate : Nat → RttStats → Bandwidth
  can_send : Nat → Bool

/-- The Pacer state (struct Pacer in pacer.rs).  The owned sender is an
external collaborator here, so it is passed to each operation as a snapshot
rather than stored; all other fields are embedded as written. -/
structure Pacer where
  enabled : Bool
  max_pacing_rate : Option Bandwidth
  burst_tokens : Nat
  ideal_next_packet_send_time : ReleaseTime
  initial_burst_size : Nat
  lumpy_tokens : Nat
  pacing_limited : Bool
deriving Repr, DecidableEq

/-- Pacer::new from pacer.rs (the congestion argument is the external
sender, not stored in this embedding). -/
def Pacer.new (enabled : Bool) (max_pacing_rate : Option Bandwidth) : Pacer :=
  { enabled := enabled
    max_pacing_rate := max_pacing_rate
    burst_tokens := INITIAL_UNPACED_BURST
    ideal_next_packet_send_time := ReleaseTime.Immediate
    initial_burst_size := INITIAL_UNPACED_BURST
    lumpy_tokens := 0
    pacing_limited := false }

/-- Pacer::get_next_release_time from pacer.rs. -/
def Pacer.get_next_release_time (p : Pacer) : ReleaseDecision :=
  if !p.enabled then
    { time := ReleaseTime.Immediate, allow_burst := true }
  else
    { time := p.ideal_next_packet_send_time
      allow_burst := p.burst_tokens > 0 || p.lumpy_tokens > 0 }

/-- Pacer::pacing_rate from pacer.rs. -/
def Pacer.pacing_rate (p : Pacer) (s : Sender) (bytes_in_flight : Nat)
    (rtt_stats : RttStats) : Bandwidth :=
  let sender_rate := s.pacing_rate bytes_in_flight rtt_stats
  match p.max_pacing_rate with
  | some rate => if p.enabled then min rate sender_rate else sender_rate
  | none => sender_rate

/-- The quiescence-exit refill step of Pacer::on_packet_sent: the value of
burst_tokens just after the conditional refill at the top of the
retransmissible path. -/
def Pacer.burstAfterRefill (p : Pacer) (s : Sender) (bytes_in_flight : Nat) :
    Nat :=
  if bytes_in_flight == 0 && !s.is_in_recovery then
    min p.initial_burst_size s.get_congestion_window_in_packets
  else p.burst_tokens

/-- The fresh lumpy_tokens value computed by the refresh branch of
Pacer::on_packet_sent: the baseline max(1, min(LUMPY_PACING_SIZE,
floor(cwnd_in_packets * 0.25))), then the low-bandwidth clamp, then the
cwnd-limited clamp, each overriding to 1. -/
def Pacer.lumpyRefresh (s : Sender) (rtt_stats : RttStats)
    (bytes_in_flight bytes : Nat) : Nat :=
  let base := max 1 (min LUMPY_PACING_SIZE
    (s.get_congestion_window_in_packets / LUMPY_PACING_CWND_DIV))
  let afterBw :=
    if s.bandwidth_estimate rtt_stats < LUMPY_PACING_MIN_BANDWIDTH_KBPS then 1
    else base
  if bytes_in_flight + bytes ≥ s.get_congestion_window then 1 else afterBw

/-- The value of lumpy_tokens just before the decrement on the paced path of
Pacer::on_packet_sent: refreshed when not pacing_limited or when empty,
otherwise the stored value. -/
def Pacer.lumpyBeforeDec (p : Pacer) (s : Sender) (rtt_stats : RttStats)
    (bytes_in_flight bytes : Nat) : Nat :=
  if !p.pacing_limited || p.lumpy_tokens == 0 then
    Pacer.lumpyRefresh s rtt_stats bytes_in_flight bytes
  else p.lumpy_tokens

/-- Pacer::on_packet_sent from pacer.rs.  The unconditional delegation to
sender.on_packet_sent is external (the sender snapshot s reflects the
controller after it); the remaining mutations of the pacer's own fields are
embedded in the source's order via the helper definitions above. -/
def Pacer.on_packet_sent (p : Pacer) (s : Sender) (sent_time : Nat)
    (bytes_in_flight : Nat) (_packet_number : Nat) (bytes : Nat)
    (is_retransmissible : Bool) (rtt_stats : RttStats) : Pacer :=
  if !p.enabled || !is_retransmissible then p
  else
    let bt := p.burstAfterRefill s bytes_in_flight
    if bt > 0 then
      { p with burst_tokens := bt - 1
               ideal_next_packet_send_time := ReleaseTime.Immediate
               pacing_limited := false }
    else
      let p1 : Pacer := { p with burst_tokens := bt }
      let delay :=
        (p1.pacing_rate s (bytes_in_flight + bytes) rtt_stats).transfer_time
          bytes
      let lt := p1.lumpyBeforeDec s rtt_stats bytes_in_flight bytes
      { p1 with
          lumpy_tokens := lt - 1
          ideal_next_packet_send_time :=
            (p1.ideal_next_packet_send_time.set_max sent_time).inc delay
          pacing_limited := s.can_send (bytes_in_flight + bytes) }

/-- Pacer::on_congestion_event from pacer.rs.  The unconditional delegation
to sender.on_congestion_event is external.  The second component of the
result records the argument of the sender.limit_cwnd call when the pacer
makes one, and is none when no call is made. -/
def Pacer.on_congestion_event (p : Pacer) (rtt_updated : Bool)
    (lost_packets : List Nat) (rtt_stats : RttStats) : Pacer × Option Nat :=
  if !p.enabled then (p, none)
  else
    let p1 : Pacer :=
      if !lost_packets.isEmpty then { p with burst_tokens := 0 } else p
    match p1.max_pacing_rate with
    | some max_pacing_rate =>
      if rtt_updated then
        let max_rate := max_pacing_rate.mul125
        (p1, some (max_rate.to_bytes_per_period rtt_stats.smoothed_rtt))
      else (p1, none)
    | none => (p1, none)

/-- Pacer::on_app_limited from pacer.rs (the sender delegation is external). -/
def Pacer.on_app_limited (p : Pacer) : Pacer :=
  { p with pacing_limited := false }

/-- One pacer-facing operation, for stating temporal properties across call
sequences.  Operations that only delegate to the sender (packet neutered,
retransmission timeout, mss update) leave the pacer's own fields unchanged. -/
inductive Op where
  | packetSent (s : Sender) (sent_time bytes_in_flight packet_number bytes : Nat)
      (is_retransmissible : Bool) (rtt_stats : RttStats) : Op
  | congestionEvent (rtt_updated : Bool) (lost_packets : List Nat)
      (rtt_stats : RttStats) : Op
  | appLimited : Op
  | packetNeutered : Op
  | retransmissionTimeout : Op
  | updateMss : Op

/-- The pacer's state transition for one operation. -/
def Pacer.step (p : Pacer) : Op → Pacer
  | .packetSent s st binf pn bytes retx rtt =>
      p.on_packet_sent s st binf pn bytes retx rtt
  | .congestionEvent ru lost rtt => (p.on_congestion_event ru lost rtt).1
  | .appLimited => p.on_app_limited
  | .packetNeutered => p
  | .retransmissionTimeout => p
  | .updateMss => p

/-- An operation is a quiescence exit when it is a retransmissible send
with no bytes in flight and the sender not in recovery: exactly the
condition of the burst-token refill in Pacer::on_packet_sent. -/
def Op.isQuiescenceExit : Op → Bool
  | .packetSent s _ binf _ _ retx _ => retx && binf == 0 && !s.is_in_recovery
  | _ => false

/-- An operation that is a retransmissible send with bytes already in flight:
such a send never triggers the quiescence-exit refill. -/
def Op.isNonquiescentSend : Op → Bool
  | .packetSent _ _ binf _ _ retx _ => retx && binf != 0
  | _ => false

/-! ## Basic lemmas about the modelled value types -/

theorem ReleaseTime.le_refl (t : ReleaseTime) : t.le t = true := by
  cases t <;> simp [ReleaseTime.le]

theorem ReleaseTime.le_trans {a b c : ReleaseTime} (hab : a.le b = true)
    (hbc : b.le c = true) : a.le c = true := by
  cases a <;> cases b <;> cases c <;>
    simp_all [ReleaseTime.le]
  omega

theorem ReleaseTime.le_set_max_inc (t : ReleaseTime) (a d : Nat) :
    t.le ((t.set_max a).inc d) = true := by
  cases t <;> simp [ReleaseTime.le, ReleaseTime.set_max, ReleaseTime.inc]
  omega

theorem ReleaseTime.set_max_inc_ne_immediate (t : ReleaseTime) (a d : Nat) :
    (t.set_max a).inc d ≠ ReleaseTime.Immediate := by
  cases t <;> simp [ReleaseTime.set_max, ReleaseTime.inc]

/-! ## Path lemmas for Pacer::on_packet_sent -/

theorem Pacer.on_packet_sent_inert (p : Pacer) (s : Sender)
    (st binf pn bytes : Nat) (retx : Bool) (rtt : RttStats)
    (h : p.enabled = false ∨ retx = false) :
    p.on_packet_sent s st binf pn bytes retx rtt = p := by
  rcases h with h | h <;> simp [Pacer.on_packet_sent, h]

theorem Pacer.burst_path_eq (p : Pacer) (s : Sender) (st binf pn bytes : Nat)
    (rtt : RttStats) (he : p.enabled = true)
    (hb : 0 < p.burstAfterRefill s binf) :
    p.on_packet_sent s st binf pn bytes true rtt =
      { p with burst_tokens := p.burstAfterRefill s binf - 1
               ideal_next_packet_send_time := ReleaseTime.Immediate
               pacing_limited := false } := by
  simp [Pacer.on_packet_sent, he, hb]

theorem Pacer.paced_path_eq (p : Pacer) (s : Sender) (st binf pn bytes : Nat)
    (rtt : RttStats) (he : p.enabled = true)
    (hb : p.burstAfterRefill s binf = 0) :
    p.on_packet_sent s st binf pn bytes true rtt =
      { p with
          burst_tokens := 0
          lumpy_tokens := p.lumpyBeforeDec s rtt binf bytes - 1
          ideal_next_packet_send_time :=
            (p.ideal_next_packet_send_time.set_max st).inc
              ((p.pacing_rate s (binf + bytes) rtt).transfer_time bytes)
          pacing_limited := s.can_send (binf + bytes) } := by
  simp [Pacer.on_packet_sent, he, hb, Pacer.pacing_rate, Pacer.lumpyBeforeDec]

theorem Pacer.on_congestion_event_fst (p : Pacer) (ru : Bool)
    (lost : List Nat) (rtt : RttStats) :
    (p.on_congestion_event ru lost rtt).1 =
      if p.enabled && !lost.isEmpty then { p with burst_tokens := 0 }
      else p := by
  cases hpe : p.enabled
  · simp [Pacer.on_congestion_event, hpe]
  · cases hl : lost.isEmpty <;>
      cases hm : p.max_pacing_rate <;> cases ru <;>
        simp [Pacer.on_congestion_event, hpe, hl, hm]

theorem Pacer.one_le_lumpyRefresh (s : Sender) (rtt : RttStats)
    (binf bytes : Nat) : 1 ≤ Pacer.lumpyRefresh s rtt binf bytes := by
  simp only [Pacer.lumpyRefresh]
  split
  · exact Nat.le_refl 1
  · split
    · exact Nat.le_refl 1
    · exact Nat.le_max_left 1 _

theorem Pacer.one_le_lumpyBeforeDec (p : Pacer) (s : Sender) (rtt : RttStats)
    (binf bytes : Nat) : 1 ≤ p.lumpyBeforeDec s rtt binf bytes := by
  simp only [Pacer.lumpyBeforeDec]
  split
  · exact Pacer.one_le_lumpyRefresh s rtt binf bytes
  · rename_i h
    simp only [Bool.or_eq_true, Bool.not_eq_true', beq_iff_eq] at h
    push_neg at h
    omega

/-! ## Trace lemmas: burst-token behaviour across operation sequences -/

theorem Pacer.step_burst_zero (p : Pacer) (op : Op) (h0 : p.burst_tokens = 0)
    (hq : op.isQuiescenceExit = false) :
    (p.step op).burst_tokens = 0 ∧
    ReleaseTime.le p.ideal_next_packet_send_time
      (p.step op).ideal_next_packet_send_time = true := by
  cases op with
  | packetSent s st binf pn bytes retx rtt =>
    cases retx with
    | false =>
      have h := Pacer.on_packet_sent_inert p s st binf pn bytes false rtt
        (Or.inr rfl)
      simp only [Pacer.step, h]
      exact ⟨h0, ReleaseTime.le_refl _⟩
    | true =>
      have hg : (binf == 0 && !s.is_in_recovery) = false := by
        simpa [Op.isQuiescenceExit] using hq
      have hb : p.burstAfterRefill s binf = 0 := by
        simp [Pacer.burstAfterRefill, hg, h0]
      cases hpe : p.enabled with
      | false =>
        have h := Pacer.on_packet_sent_inert p s st binf pn bytes true rtt
          (Or.inl hpe)
        simp only [Pacer.step, h]
        exact ⟨h0, ReleaseTime.le_refl _⟩
      | true =>
        have h := Pacer.paced_path_eq p s st binf pn bytes rtt hpe hb
        simp only [Pacer.step, h]
        exact ⟨by trivial, ReleaseTime.le_set_max_inc _ _ _⟩
  | congestionEvent ru lost rtt =>
    simp only [Pacer.step, Pacer.on_congestion_event_fst]
    split
    · exact ⟨rfl, ReleaseTime.le_refl _⟩
    · exact ⟨h0, ReleaseTime.le_refl _⟩
  | appLimited =>
    simp only [Pacer.step, Pacer.on_app_limited]
    exact ⟨h0, ReleaseTime.le_refl _⟩
  | packetNeutered => exact ⟨h0, ReleaseTime.le_refl _⟩
  | retransmissionTimeout => exact ⟨h0, ReleaseTime.le_refl _⟩
  | updateMss => exact ⟨h0, ReleaseTime.le_refl _⟩

theorem Pacer.trace_burst_zero (p : Pacer) (ops : List Op)
    (h0 : p.burst_tokens = 0)
    (hq : ∀ op ∈ ops, op.isQuiescenceExit = false) :
    (ops.foldl Pacer.step p).burst_tokens = 0 ∧
    ReleaseTime.le p.ideal_next_packet_send_time
      (ops.foldl Pacer.step p).ideal_next_packet_send_time = true := by
  induction ops generalizing p with
  | nil => exact ⟨h0, ReleaseTime.le_refl _⟩
  | cons op ops ih =>
    have h1 := Pacer.step_burst_zero p op h0 (hq op (List.mem_cons_self op ops))
    have h2 := ih (p.step op) h1.1
      (fun o ho => hq o (List.mem_cons_of_mem op ho))
    simp only [List.foldl_cons]
    exact ⟨h2.1, ReleaseTime.le_trans h1.2 h2.2⟩

theorem Pacer.trace_burst_drain (p : Pacer) (ops : List Op)
    (he : p.enabled = true)
    (hops : ∀ op ∈ ops, op.isNonquiescentSend = true)
    (hlen : ops.length ≤ p.burst_tokens) :
    (ops.foldl Pacer.step p).burst_tokens = p.burst_tokens - ops.length ∧
    (ops.foldl Pacer.step p).lumpy_tokens = p.lumpy_tokens ∧
    (ops ≠ [] →
      (ops.foldl Pacer.step p).ideal_next_packet_send_time =
        ReleaseTime.Immediate ∧
      (ops.foldl Pacer.step p).pacing_limited = false) := by
  induction ops generalizing p with
  | nil => simp
  | cons op ops ih =>
    cases op with
    | congestionEvent ru lost rtt =>
      have := hops _ (List.mem_cons_self _ _); simp [Op.isNonquiescentSend] at this
    | appLimited =>
      have := hops _ (List.mem_cons_self _ _); simp [Op.isNonquiescentSend] at this
    | packetNeutered =>
      have := hops _ (List.mem_cons_self _ _); simp [Op.isNonquiescentSend] at this
    | retransmissionTimeout =>
      have := hops _ (List.mem_cons_self _ _); simp [Op.isNonquiescentSend] at this
    | updateMss =>
      have := hops _ (List.mem_cons_self _ _); simp [Op.isNonquiescentSend] at this
    | packetSent s st binf pn bytes retx rtt =>
      have hh := hops _ (List.mem_cons_self _ _)
      simp only [Op.isNonquiescentSend, Bool.and_eq_true, bne_iff_ne,
        ne_eq] at hh
      obtain ⟨hretx, hbinf⟩ := hh
      subst hretx
      have hb : p.burstAfterRefill s binf = p.burst_tokens := by
        simp [Pacer.burstAfterRefill, hbinf]
      have hpos : 0 < p.burstAfterRefill s binf := by
        rw [hb]
        have := hlen
        simp only [List.length_cons] at this
        omega
      have hstep : p.step (Op.packetSent s st binf pn bytes true rtt) =
          { p with burst_tokens := p.burstAfterRefill s binf - 1
                   ideal_next_packet_send_time := ReleaseTime.Immediate
                   pacing_limited := false } := by
        simp only [Pacer.step]
        exact Pacer.burst_path_eq p s st binf pn bytes rtt he hpos
      simp only [List.foldl_cons, hstep, hb]
      have hlen' : ops.length ≤ p.burst_tokens - 1 := by
        simp only [List.length_cons] at hlen
        omega
      have ih' := ih
        { p with burst_tokens := p.burst_tokens - 1
                 ideal_next_packet_send_time := ReleaseTime.Immediate
                 pacing_limited := false }
        he (fun o ho => hops o (List.mem_cons_of_mem _ ho)) hlen'
      refine ⟨?_, ih'.2.1, fun _ => ?_⟩
      · rw [ih'.1]
        simp only [List.length_cons]
        omega
      · by_cases hops' : ops = []
        · subst hops'
          simp only [List.foldl_nil]
          exact ⟨by trivial, by trivial⟩
        · exact ih'.2.2 hops'

theorem Pacer.on_congestion_event_snd (p : Pacer) (ru : Bool)
    (lost : List Nat) (rtt : RttStats) :
    (p.on_congestion_event ru lost rtt).2 =
      match p.max_pacing_rate with
      | some r =>
        if p.enabled && ru then
          some ((Bandwidth.mul125 r).to_bytes_per_period rtt.smoothed_rtt)
        else none
      | none => none := by
  cases hpe : p.enabled <;> cases hm : p.max_pacing_rate <;> cases ru <;>
    cases hl : lost.isEmpty <;>
      simp [Pacer.on_congestion_event, hpe, hm, hl]

/-! ## Concrete fixtures used by the witness theorems -/

/-- A sender snapshot with a large congestion window and a 10 Mbps rate. -/
def senderEx : Sender :=
  { is_in_recovery := false
    get_congestion_window_in_packets := 100
    get_congestion_window := 120000
    bandwidth_estimate := fun _ => 10000000
    pacing_rate := fun _ _ => 10000000
    can_send := fun _ => true }

/-- A sender snapshot whose congestion window is only 3 packets. -/
def senderSmall : Sender :=
  { is_in_recovery := false
    get_congestion_window_in_packets := 3
    get_congestion_window := 3600
    bandwidth_estimate := fun _ => 10000000
    pacing_rate := fun _ _ => 10000000
    can_send := fun _ => true }

/-- An RTT snapshot with smoothed_rtt of 50 ms. -/
def rttEx : RttStats := { smoothed_rtt := 50000 }

/-- A freshly constructed enabled pacer with no rate cap. -/
def pacerEx : Pacer := Pacer.new true none

/-- An enabled pacer that has exhausted its burst tokens. -/
def pacerPaced : Pacer := { Pacer.new true none with burst_tokens := 0 }

/-- A freshly constructed enabled pacer capped at 5 Mbps. -/
def pacerCapped : Pacer := Pacer.new true (some 5000000)

/-! ## Claim theorems -/

/-- C1: across on_packet_sent calls, once the pacer has left the burst state
(burst_tokens is 0 after the refill step), each paced send sets the clock to
the previous clock clamped up to sent_time and advanced by the transfer-time
delay (a Nat, hence non-negative), never back to Immediate, so
ideal_next_packet_send_time is non-decreasing; and along any operation
sequence containing no quiescence exit the clock never decreases. -/
theorem ideal_send_time_monotone :
    (∀ (p : Pacer) (s : Sender) (st binf pn bytes : Nat) (rtt : RttStats),
      p.enabled = true → p.burstAfterRefill s binf = 0 →
      (p.on_packet_sent s st binf pn bytes true rtt).ideal_next_packet_send_time
        = (p.ideal_next_packet_send_time.set_max st).inc
            ((p.pacing_rate s (binf + bytes) rtt).transfer_time bytes) ∧
      ReleaseTime.le p.ideal_next_packet_send_time
        (p.on_packet_sent s st binf pn bytes true
          rtt).ideal_next_packet_send_time = true ∧
      (p.on_packet_sent s st binf pn bytes true
        rtt).ideal_next_packet_send_time ≠ ReleaseTime.Immediate) ∧
    (∀ (p : Pacer) (ops : List Op), p.burst_tokens = 0 →
      (∀ op ∈ ops, op.isQuiescenceExit = false) →
      ReleaseTime.le p.ideal_next_packet_send_time
        (ops.foldl Pacer.step p).ideal_next_packet_send_time = true) := by
  constructor
  · intro p s st binf pn bytes rtt he hb
    rw [Pacer.paced_path_eq p s st binf pn bytes rtt he hb]
    exact ⟨rfl, ReleaseTime.le_set_max_inc _ _ _,
      ReleaseTime.set_max_inc_ne_immediate _ _ _⟩
  · intro p ops h0 hq
    exact (Pacer.trace_burst_zero p ops h0 hq).2

theorem ideal_send_time_monotone_witness :
    pacerPaced.enabled = true ∧
    pacerPaced.burstAfterRefill senderEx 5000 = 0 ∧
    ReleaseTime.le pacerPaced.ideal_next_packet_send_time
      (pacerPaced.on_packet_sent senderEx 1000 5000 1 1200 true
        rttEx).ideal_next_packet_send_time = true :=
  ⟨rfl, by decide,
    (ideal_send_time_monotone.1 pacerPaced senderEx 1000 5000 1 1200 rttEx
      rfl (by decide)).2.1⟩

/-- C2: get_next_release_time is a pure observation (it is a function of the
state, embedded from a shared-borrow method); when disabled it returns
(Immediate, allow_burst = true) in every state, and when enabled it returns
the stored clock with allow_burst true exactly when burst or lumpy tokens
remain. -/
theorem get_next_release_time_spec (p : Pacer) :
    (p.enabled = false →
      p.get_next_release_time =
        { time := ReleaseTime.Immediate, allow_burst := true }) ∧
    (p.enabled = true →
      p.get_next_release_time.time = p.ideal_next_packet_send_time ∧
      (p.get_next_release_time.allow_burst = true ↔
        (0 < p.burst_tokens ∨ 0 < p.lumpy_tokens))) := by
  constructor
  · intro h
    simp [Pacer.get_next_release_time, h]
  · intro h
    simp [Pacer.get_next_release_time, h]

theorem get_next_release_time_spec_witness :
    pacerEx.enabled = true ∧
    (pacerEx.get_next_release_time.time =
        pacerEx.ideal_next_packet_send_time ∧
      (pacerEx.get_next_release_time.allow_burst = true ↔
        (0 < pacerEx.burst_tokens ∨ 0 < pacerEx.lumpy_tokens))) :=
  ⟨rfl, (get_next_release_time_spec pacerEx).2 rfl⟩

/-- C3: on an enabled pacer, a retransmissible send finding burst tokens
after the refill step takes the burst path: it decrements the post-refill
burst tokens by exactly one, resets the clock to Immediate, clears
pacing_limited, and changes nothing else (in particular lumpy_tokens is
untouched and no rate-based delay is applied). -/
theorem burst_path_spec (p : Pacer) (s : Sender) (st binf pn bytes : Nat)
    (rtt : RttStats) (he : p.enabled = true)
    (hb : 0 < p.burstAfterRefill s binf) :
    p.on_packet_sent s st binf pn bytes true rtt =
      { p with burst_tokens := p.burstAfterRefill s binf - 1
               ideal_next_packet_send_time := ReleaseTime.Immediate
               pacing_limited := false } :=
  Pacer.burst_path_eq p s st binf pn bytes rtt he hb

theorem burst_path_spec_witness :
    pacerEx.enabled = true ∧ 0 < pacerEx.burstAfterRefill senderEx 0 ∧
    pacerEx.on_packet_sent senderEx 1000 0 1 1200 true rttEx =
      { pacerEx with
          burst_tokens := pacerEx.burstAfterRefill senderEx 0 - 1
          ideal_next_packet_send_time := ReleaseTime.Immediate
          pacing_limited := false } :=
  ⟨rfl, by decide,
    burst_path_spec pacerEx senderEx 1000 0 1 1200 rttEx rfl (by decide)⟩

/-- C4: when a retransmissible packet is sent with no bytes in flight and
the sender not in recovery, burst_tokens is refilled to
min(initial_burst_size, cwnd-in-packets) before consumption, so (with the
constructed initial_burst_size of 10) the refilled value never exceeds
min(INITIAL_UNPACED_BURST, cwnd-in-packets); in recovery or with bytes in
flight no refill occurs. -/
theorem quiescence_refill_spec (p : Pacer) (s : Sender) (binf : Nat)
    (hibs : p.initial_burst_size = INITIAL_UNPACED_BURST) :
    (binf = 0 → s.is_in_recovery = false →
      p.burstAfterRefill s binf =
        min INITIAL_UNPACED_BURST s.get_congestion_window_in_packets ∧
      p.burstAfterRefill s binf ≤
        min INITIAL_UNPACED_BURST s.get_congestion_window_in_packets) ∧
    (s.is_in_recovery = true ∨ binf ≠ 0 →
      p.burstAfterRefill s binf = p.burst_tokens) ∧
    (∀ st pn bytes rtt, p.enabled = true → binf = 0 →
      s.is_in_recovery = false →
      (p.on_packet_sent s st binf pn bytes true rtt).burst_tokens =
        min INITIAL_UNPACED_BURST s.get_congestion_window_in_packets - 1) := by
  refine ⟨?_, ?_, ?_⟩
  · intro h0 hr
    have heq : p.burstAfterRefill s binf =
        min INITIAL_UNPACED_BURST s.get_congestion_window_in_packets := by
      simp [Pacer.burstAfterRefill, h0, hr, hibs]
    exact ⟨heq, Nat.le_of_eq heq⟩
  · intro h
    rcases h with hr | h0
    · simp [Pacer.burstAfterRefill, hr]
    · simp [Pacer.burstAfterRefill, h0]
  · intro st pn bytes rtt he h0 hr
    have heq : p.burstAfterRefill s binf =
        min INITIAL_UNPACED_BURST s.get_congestion_window_in_packets := by
      simp [Pacer.burstAfterRefill, h0, hr, hibs]
    rcases Nat.eq_zero_or_pos (p.burstAfterRefill s binf) with hz | hp
    · rw [Pacer.paced_path_eq p s st binf pn bytes rtt he hz]
      have hmin : min INITIAL_UNPACED_BURST
          s.get_congestion_window_in_packets = 0 := heq ▸ hz
      simp [hmin]
    · rw [Pacer.burst_path_eq p s st binf pn bytes rtt he hp]
      simp [heq]

theorem quiescence_refill_spec_witness :
    pacerEx.initial_burst_size = INITIAL_UNPACED_BURST ∧
    pacerEx.burstAfterRefill senderSmall 0 =
      min INITIAL_UNPACED_BURST senderSmall.get_congestion_window_in_packets :=
  ⟨rfl, ((quiescence_refill_spec pacerEx senderSmall 0 rfl).1 rfl rfl).1⟩

/-- C5: on the paced path, lumpy_tokens is refreshed exactly when
pacing_limited is false or the stored value is 0; the refreshed value is
max(1, min(LUMPY_PACING_SIZE, cwnd-in-packets / 4)), overridden to 1 when
the bandwidth estimate is below 1200 kbps or the window edge is reached;
otherwise the stored value is only decremented. -/
theorem lumpy_refresh_spec (p : Pacer) (s : Sender) (st binf pn bytes : Nat)
    (rtt : RttStats) (he : p.enabled = true)
    (hb : p.burstAfterRefill s binf = 0) :
    ((p.pacing_limited = false ∨ p.lumpy_tokens = 0) →
      (p.on_packet_sent s st binf pn bytes true rtt).lumpy_tokens =
        Pacer.lumpyRefresh s rtt binf bytes - 1) ∧
    (p.pacing_limited = true → p.lumpy_tokens ≠ 0 →
      (p.on_packet_sent s st binf pn bytes true rtt).lumpy_tokens =
        p.lumpy_tokens - 1) ∧
    Pacer.lumpyRefresh s rtt binf bytes =
      (if s.bandwidth_estimate rtt < LUMPY_PACING_MIN_BANDWIDTH_KBPS ∨
          s.get_congestion_window ≤ binf + bytes then 1
       else max 1 (min LUMPY_PACING_SIZE
         (s.get_congestion_window_in_packets / LUMPY_PACING_CWND_DIV))) := by
  refine ⟨?_, ?_, ?_⟩
  · intro h
    rw [Pacer.paced_path_eq p s st binf pn bytes rtt he hb]
    have heq : p.lumpyBeforeDec s rtt binf bytes =
        Pacer.lumpyRefresh s rtt binf bytes := by
      rcases h with h | h <;> simp [Pacer.lumpyBeforeDec, h]
    simp [heq]
  · intro hpl hlt
    rw [Pacer.paced_path_eq p s st binf pn bytes rtt he hb]
    have heq : p.lumpyBeforeDec s rtt binf bytes = p.lumpy_tokens := by
      simp [Pacer.lumpyBeforeDec, hpl, hlt]
    simp [heq]
  · simp only [Pacer.lumpyRefresh]
    by_cases h1 :
        s.bandwidth_estimate rtt < LUMPY_PACING_MIN_BANDWIDTH_KBPS <;>
      by_cases h2 : s.get_congestion_window ≤ binf + bytes <;>
        simp [h1, h2]

theorem lumpy_refresh_spec_witness :
    pacerPaced.enabled = true ∧
    pacerPaced.burstAfterRefill senderEx 5000 = 0 ∧
    pacerPaced.pacing_limited = false ∧
    (pacerPaced.on_packet_sent senderEx 1000 5000 1 1200 true
      rttEx).lumpy_tokens = Pacer.lumpyRefresh senderEx rttEx 5000 1200 - 1 :=
  ⟨rfl, by decide, rfl,
    (lumpy_refresh_spec pacerPaced senderEx 1000 5000 1 1200 rttEx rfl
      (by decide)).1 (Or.inl rfl)⟩

/-- C6: on an enabled pacer, a congestion event with a non-empty lost list
zeroes burst_tokens, and burst_tokens stays 0 across every subsequent
operation sequence that contains no quiescence exit (no retransmissible send
with zero bytes in flight outside recovery). -/
theorem loss_cancels_burst_credit (p : Pacer) (ru : Bool) (lost : List Nat)
    (rtt : RttStats) (ops : List Op) (he : p.enabled = true)
    (hl : lost ≠ [])
    (hq : ∀ op ∈ ops, op.isQuiescenceExit = false) :
    (p.on_congestion_event ru lost rtt).1.burst_tokens = 0 ∧
    (ops.foldl Pacer.step
      (p.on_congestion_event ru lost rtt).1).burst_tokens = 0 := by
  have hfalse : lost.isEmpty = false := by
    cases lost with
    | nil => exact absurd rfl hl
    | cons a l => rfl
  have h0 : (p.on_congestion_event ru lost rtt).1.burst_tokens = 0 := by
    rw [Pacer.on_congestion_event_fst]
    simp [he, hfalse]
  exact ⟨h0, (Pacer.trace_burst_zero _ ops h0 hq).1⟩

theorem loss_cancels_burst_credit_witness :
    pacerEx.enabled = true ∧ ([3] : List Nat) ≠ [] ∧
    (([Op.packetSent senderEx 1000 5000 1 1200 true rttEx,
       Op.appLimited]).foldl Pacer.step
        (pacerEx.on_congestion_event true [3] rttEx).1).burst_tokens = 0 :=
  ⟨rfl, by decide,
    (loss_cancels_burst_credit pacerEx true [3] rttEx
      [Op.packetSent senderEx 1000 5000 1 1200 true rttEx, Op.appLimited]
      rfl (by decide) (by decide)).2⟩

/-- C7: pacing_rate returns the minimum of the configured cap and the
sender's rate when the pacer is enabled and a cap is configured (hence is
bounded by the cap), and returns the sender's rate unchanged when the pacer
is disabled or no cap is configured. -/
theorem pacing_rate_cap (p : Pacer) (s : Sender) (binf : Nat)
    (rtt : RttStats) :
    (∀ R, p.max_pacing_rate = some R → p.enabled = true →
      p.pacing_rate s binf rtt = min R (s.pacing_rate binf rtt) ∧
      p.pacing_rate s binf rtt ≤ R) ∧
    (p.enabled = false ∨ p.max_pacing_rate = none →
      p.pacing_rate s binf rtt = s.pacing_rate binf rtt) := by
  constructor
  · intro R hm he
    have heq : p.pacing_rate s binf rtt =
        min R (s.pacing_rate binf rtt) := by
      simp [Pacer.pacing_rate, hm, he]
    exact ⟨heq, heq ▸ Nat.min_le_left _ _⟩
  · intro h
    rcases h with he | hm
    · cases hm : p.max_pacing_rate <;> simp [Pacer.pacing_rate, hm, he]
    · simp [Pacer.pacing_rate, hm]

theorem pacing_rate_cap_witness :
    pacerCapped.max_pacing_rate = some 5000000 ∧
    pacerCapped.enabled = true ∧
    pacerCapped.pacing_rate senderEx 5000 rttEx ≤ 5000000 :=
  ⟨rfl, rfl,
    ((pacing_rate_cap pacerCapped senderEx 5000 rttEx).1 5000000 rfl rfl).2⟩

/-- C8: on_congestion_event issues a limit_cwnd call exactly when the pacer
is enabled, a maximum pacing rate is configured and rtt_updated holds, and
the argument of that call is
(max_pacing_rate * 1.25).to_bytes_per_period(smoothed_rtt). -/
theorem limit_cwnd_cap_spec (p : Pacer) (ru : Bool) (lost : List Nat)
    (rtt : RttStats) :
    ((p.on_congestion_event ru lost rtt).2.isSome = true ↔
      (p.enabled = true ∧ p.max_pacing_rate.isSome = true ∧ ru = true)) ∧
    (∀ R, p.enabled = true → p.max_pacing_rate = some R → ru = true →
      (p.on_congestion_event ru lost rtt).2 =
        some ((Bandwidth.mul125 R).to_bytes_per_period rtt.smoothed_rtt)) := by
  constructor
  · rw [Pacer.on_congestion_event_snd]
    cases hm : p.max_pacing_rate <;> cases hpe : p.enabled <;> cases ru <;>
      simp
  · intro R hpe hm hru
    subst hru
    rw [Pacer.on_congestion_event_snd, hm]
    simp [hpe]

theorem limit_cwnd_cap_spec_witness :
    pacerCapped.enabled = true ∧
    pacerCapped.max_pacing_rate = some 5000000 ∧
    (pacerCapped.on_congestion_event true [] rttEx).2 = some 39062 := by
  refine ⟨rfl, rfl, ?_⟩
  rw [(limit_cwnd_cap_spec pacerCapped true [] rttEx).2 5000000 rfl rfl rfl]
  rfl

/-- C9: on the paced path the value of lumpy_tokens just before the
decrement is at least 1 (a refresh runs whenever the stored value is 0 and
every refresh yields at least 1), so the decrement never underflows: adding
1 back to the post-send value recovers the pre-decrement value exactly. -/
theorem lumpy_tokens_no_underflow (p : Pacer) (s : Sender)
    (st binf pn bytes : Nat) (rtt : RttStats) (he : p.enabled = true)
    (hb : p.burstAfterRefill s binf = 0) :
    1 ≤ p.lumpyBeforeDec s rtt binf bytes ∧
    (p.on_packet_sent s st binf pn bytes true rtt).lumpy_tokens + 1 =
      p.lumpyBeforeDec s rtt binf bytes := by
  have h1 := Pacer.one_le_lumpyBeforeDec p s rtt binf bytes
  refine ⟨h1, ?_⟩
  rw [Pacer.paced_path_eq p s st binf pn bytes rtt he hb]
  dsimp only
  omega

theorem lumpy_tokens_no_underflow_witness :
    pacerPaced.enabled = true ∧
    pacerPaced.burstAfterRefill senderEx 5000 = 0 ∧
    (pacerPaced.on_packet_sent senderEx 1000 5000 1 1200 true
      rttEx).lumpy_tokens + 1 = pacerPaced.lumpyBeforeDec senderEx rttEx
        5000 1200 :=
  ⟨rfl, by decide,
    (lumpy_tokens_no_underflow pacerPaced senderEx 1000 5000 1 1200 rttEx
      rfl (by decide)).2⟩

/-- C10: Pacer::new initialises burst_tokens to INITIAL_UNPACED_BURST with
no congestion-window clamp, lumpy_tokens to 0, the clock to Immediate and
pacing_limited to false; a fresh enabled pacer's first release decision is
(Immediate, allow_burst = true), and any run of up to 10 retransmissible
sends with bytes already in flight (hence no quiescence-exit refill) drains
the burst path one token per send with the clock staying Immediate,
regardless of the congestion window. -/
theorem pacer_new_spec (e : Bool) (mpr : Option Bandwidth) (ops : List Op)
    (hops : ∀ op ∈ ops, op.isNonquiescentSend = true)
    (hlen : ops.length ≤ INITIAL_UNPACED_BURST) :
    (Pacer.new e mpr).burst_tokens = INITIAL_UNPACED_BURST ∧
    (Pacer.new e mpr).lumpy_tokens = 0 ∧
    (Pacer.new e mpr).ideal_next_packet_send_time = ReleaseTime.Immediate ∧
    (Pacer.new e mpr).pacing_limited = false ∧
    (Pacer.new true mpr).get_next_release_time =
      { time := ReleaseTime.Immediate, allow_burst := true } ∧
    (ops.foldl Pacer.step (Pacer.new true mpr)).burst_tokens =
      INITIAL_UNPACED_BURST - ops.length ∧
    (ops ≠ [] →
      (ops.foldl Pacer.step
        (Pacer.new true mpr)).ideal_next_packet_send_time =
          ReleaseTime.Immediate) := by
  have hdrain := Pacer.trace_burst_drain (Pacer.new true mpr) ops rfl hops
    hlen
  exact ⟨rfl, rfl, rfl, rfl, rfl, hdrain.1,
    fun h => (hdrain.2.2 h).1⟩

theorem pacer_new_spec_witness :
    (∀ op ∈ [Op.packetSent senderSmall 1000 1 1 1200 true rttEx,
             Op.packetSent senderSmall 1000 2 2 1200 true rttEx],
      op.isNonquiescentSend = true) ∧
    (([Op.packetSent senderSmall 1000 1 1 1200 true rttEx,
       Op.packetSent senderSmall 1000 2 2 1200 true rttEx]).foldl Pacer.step
        (Pacer.new true none)).burst_tokens = INITIAL_UNPACED_BURST - 2 :=
  ⟨by decide,
    (pacer_new_spec true none
      [Op.packetSent senderSmall 1000 1 1 1200 true rttEx,
       Op.packetSent senderSmall 1000 2 2 1200 true rttEx]
      (by decide) (by decide)).2.2.2.2.2.1⟩

end PacerModel
